import Mathlib

/-!
Shallow embedding of `stopwatch-rs` (`src/main.rs`).

Instants (`std::time::Instant`) are modelled as natural numbers of
nanoseconds on a monotonic clock, and `Duration` values as natural numbers
of nanoseconds.  `Instant::duration_since` saturates at zero when the
argument is later (stable Rust behaviour), which is exactly truncated
subtraction on `Nat`.  Every `App` method that reads `Instant::now()` takes
the current instant `now : Nat` as an explicit argument; a reachability
relation below threads a monotonically non-decreasing sequence of instants
through the operations.

`ratatui::widgets::ListState` is modelled by the only field the program
uses, `selected : Option Nat` (`ListState::default()` starts with `None`;
`select` overwrites it).
-/

structure App where
  start_time : Nat
  is_running : Bool
  laps : List (Nat × Nat)
  last_lap : Nat
  selected : Option Nat
deriving DecidableEq, Repr

/-- `App::new`: `start_time = last_lap = now`, running, no laps, nothing
selected (`ListState::default()`). -/
def App.new (now : Nat) : App :=
  { start_time := now
    is_running := true
    laps := []
    last_lap := now
    selected := none }

/-- `App::add_lap`: push `(now − last_lap, now − start_time)`, stamp
`last_lap := now`, and — guarded by the source's `if !self.laps.is_empty()`
check, which after the push always succeeds — select index 0 of the
reversed (newest-first) view. -/
def App.add_lap (s : App) (now : Nat) : App :=
  let lap_time := now - s.last_lap
  let total_time := now - s.start_time
  let laps2 := s.laps ++ [(lap_time, total_time)]
  { s with
    laps := laps2
    last_lap := now
    selected := if laps2.isEmpty then s.selected else some 0 }

/-- `App::toggle_pause`: flip `is_running`; when the flip lands on running
(resume), advance `start_time` by `now − last_lap` and stamp
`last_lap := now`.  The pause direction performs no updates at all — in
particular it does NOT re-stamp `last_lap`. -/
def App.toggle_pause (s : App) (now : Nat) : App :=
  let r := !s.is_running
  if r then
    { s with
      is_running := r
      start_time := s.start_time + (now - s.last_lap)
      last_lap := now }
  else
    { s with is_running := r }

/-- `App::reset`: unconditionally re-initialize every field. -/
def App.reset (s : App) (now : Nat) : App :=
  { s with
    start_time := now
    last_lap := now
    is_running := true
    laps := []
    selected := none }

/-- `App::elapsed`: `now − start_time` while running, otherwise the frozen
`last_lap − start_time`. -/
def App.elapsed (s : App) (now : Nat) : Nat :=
  if s.is_running then now - s.start_time else s.last_lap - s.start_time

/-- The elapsed value computed in `Int`, i.e. without the saturation that
`Instant::duration_since` performs.  Used to state that the saturation
never actually truncates (claim C9). -/
def App.elapsedExact (s : App) (now : Nat) : Int :=
  if s.is_running then (now : Int) - (s.start_time : Int)
  else (s.last_lap : Int) - (s.start_time : Int)

/-- `App::scroll_up`: no-op on an empty lap list; otherwise move the
selection to the previous index, wrapping from 0 to `len − 1`, selecting 0
when nothing was selected. -/
def App.scroll_up (s : App) : App :=
  if s.laps.isEmpty then s
  else
    let sel :=
      match s.selected with
      | some i => if i = 0 then s.laps.length - 1 else i - 1
      | none => 0
    { s with selected := some sel }

/-- `App::scroll_down`: no-op on an empty lap list; otherwise move the
selection to the next index, wrapping from `len − 1` (the source tests
`i >= len − 1`) back to 0, selecting 0 when nothing was selected. -/
def App.scroll_down (s : App) : App :=
  if s.laps.isEmpty then s
  else
    let sel :=
      match s.selected with
      | some i => if s.laps.length - 1 ≤ i then 0 else i + 1
      | none => 0
    { s with selected := some sel }

/-- The five state-mutating operations `run_app` can invoke on the `App`. -/
inductive Op where
  | addLap
  | togglePause
  | reset
  | scrollUp
  | scrollDown
deriving DecidableEq, Repr

/-- Dispatch an operation at instant `now`. -/
def App.applyOp (s : App) (op : Op) (now : Nat) : App :=
  match op with
  | Op.addLap => s.add_lap now
  | Op.togglePause => s.toggle_pause now
  | Op.reset => s.reset now
  | Op.scrollUp => s.scroll_up
  | Op.scrollDown => s.scroll_down

/-- `Reachable s t`: state `s` arises from `App::new` at some instant,
followed by any sequence of operations at monotonically non-decreasing
instants, the last of which happened at instant `t` (the clock is
monotonic, so later reads of `Instant::now()` return values `≥ t`). -/
inductive Reachable : App → Nat → Prop where
  | init (t0 : Nat) : Reachable (App.new t0) t0
  | step (s : App) (t t' : Nat) (op : Op) :
      Reachable s t → t ≤ t' → Reachable (s.applyOp op t') t'

/-!
`format_duration` works on `duration.as_secs_f64()` and Rust's fixed
precision float formatting (`{:.2}`, `{:.1}`, `{:.0}`).  We model the f64
pipeline at exact (rational) precision over the nanosecond count: at the
nanosecond granularity of `Duration`, the branch comparisons `< 60.0` and
`< 3600.0` and the `/` `%` `floor` component arithmetic agree with the
exact values, and `{:.k}` is modelled as rounding the exact value to `k`
decimals half-to-even (Rust rounds the exact decimal expansion of the f64
half-to-even; the two can differ only within half an ulp of a decimal tie,
a regime none of the theorems below exercises). -/

/-- Round `num / den` to the nearest natural, ties to even. -/
def roundHalfEven (num den : Nat) : Nat :=
  let q := num / den
  let r := num % den
  if 2 * r < den then q
  else if den < 2 * r then q + 1
  else if q % 2 = 0 then q else q + 1

/-- Zero-pad a natural below 100 to two digits (the fractional part of a
`{:.2}` rendering is always two digits). -/
def pad2 (n : Nat) : String :=
  if n < 10 then "0" ++ toString n else toString n

/-- `format \x7b:.2\x7d` of a duration of `ns` nanoseconds viewed in seconds:
round to centiseconds, then print `⟨whole⟩.⟨two fraction digits⟩`. -/
def fmt2 (ns : Nat) : String :=
  let cs := roundHalfEven ns (10 ^ 7)
  toString (cs / 100) ++ "." ++ pad2 (cs % 100)

/-- `format \x7b:.1\x7d` of a duration of `ns` nanoseconds viewed in seconds:
round to deciseconds, then print `⟨whole⟩.⟨one fraction digit⟩`. -/
def fmt1 (ns : Nat) : String :=
  let ds := roundHalfEven ns (10 ^ 8)
  toString (ds / 10) ++ "." ++ toString (ds % 10)

/-- `format_duration` from `src/main.rs`, over nanosecond counts.
`minutes`/`hours` are the f64 `floor` of a division, i.e. `Nat` division
here; `% 60.0` / `% 3600.0` are exact fmod, i.e. `Nat` remainder here.
Note the source applies no zero padding to the `\x7b:.0\x7d` minute and
hour fields nor to the whole-second part of `\x7b:.2\x7d`/`\x7b:.1\x7d`. -/
def format_duration (ns : Nat) : String :=
  if ns < 60 * 10 ^ 9 then
    fmt2 ns ++ "s"
  else if ns < 3600 * 10 ^ 9 then
    let minutes := ns / (60 * 10 ^ 9)
    let seconds := ns % (60 * 10 ^ 9)
    toString minutes ++ "m " ++ fmt2 seconds ++ "s"
  else
    let hours := ns / (3600 * 10 ^ 9)
    let remaining_seconds := ns % (3600 * 10 ^ 9)
    let minutes := remaining_seconds / (60 * 10 ^ 9)
    let seconds := remaining_seconds % (60 * 10 ^ 9)
    toString hours ++ "h " ++ toString minutes ++ "m " ++ fmt1 seconds ++ "s"

/-- Modelled from the spec: the output format claim C7 asserts, which
differs from the source only in zero-padding the whole-second field of the
minutes branch to two digits and the minute and whole-second fields of the
hours branch to two digits (spec examples `"3m 07.50s"`, `"1h 02m 03.4s"`,
`"1h 00m 00.0s"`). -/
def format_duration_spec_padded (ns : Nat) : String :=
  if ns < 60 * 10 ^ 9 then
    fmt2 ns ++ "s"
  else if ns < 3600 * 10 ^ 9 then
    let minutes := ns / (60 * 10 ^ 9)
    let cs := roundHalfEven (ns % (60 * 10 ^ 9)) (10 ^ 7)
    toString minutes ++ "m " ++ pad2 (cs / 100) ++ "." ++ pad2 (cs % 100) ++ "s"
  else
    let hours := ns / (3600 * 10 ^ 9)
    let remaining_seconds := ns % (3600 * 10 ^ 9)
    let minutes := remaining_seconds / (60 * 10 ^ 9)
    let ds := roundHalfEven (remaining_seconds % (60 * 10 ^ 9)) (10 ^ 8)
    toString hours ++ "h " ++ pad2 minutes ++ "m " ++ pad2 (ds / 10) ++ "."
      ++ toString (ds % 10) ++ "s"

/-!
Telescoping structure of the lap list, and the reachability invariant.
-/

/-- `lapsTelescope l acc` holds when, starting from a cumulative value
`acc`, each entry `(lap, cum)` of `l` satisfies `cum = acc + lap` with the
accumulator advancing to `cum`. -/
def lapsTelescope : List (Nat × Nat) → Nat → Prop
  | [], _ => True
  | (lap, cum) :: rest, acc => cum = acc + lap ∧ lapsTelescope rest cum

/-- Cumulative value of the last lap, or the accumulator if none. -/
def lastCumAcc : List (Nat × Nat) → Nat → Nat
  | [], acc => acc
  | (_, cum) :: rest, _ => lastCumAcc rest cum

/-- The inductive invariant carried along `Reachable`: the anchor never
exceeds the last event instant, which never exceeds the clock; the lap
list telescopes from 0 and its final cumulative value is `last_lap −
start_time`; any selected index is in bounds. -/
def AppInv (s : App) (t : Nat) : Prop :=
  s.start_time ≤ s.last_lap ∧ s.last_lap ≤ t ∧
  lapsTelescope s.laps 0 ∧
  lastCumAcc s.laps 0 = s.last_lap - s.start_time ∧
  ∀ i, s.selected = some i → i < s.laps.length

/-- A concrete run: start at instant 0, lap at 5, pause at 8, resume at 18,
lap at 20.  Its lap list is `[(5, 5), (2, 7)]` with index 0 selected. -/
def demoApp : App :=
  ((((App.new 0).add_lap 5).toggle_pause 8).toggle_pause 18).add_lap 20

theorem lastCumAcc_append_single (l : List (Nat × Nat)) (acc a c : Nat) :
    lastCumAcc (l ++ [(a, c)]) acc = c := by
  induction l generalizing acc with
  | nil => rfl
  | cons hd tl ih =>
    obtain ⟨lap, cum⟩ := hd
    simpa [lastCumAcc] using ih cum

theorem lapsTelescope_append_single (l : List (Nat × Nat)) (acc a c : Nat)
    (h : lapsTelescope l acc) (hc : c = lastCumAcc l acc + a) :
    lapsTelescope (l ++ [(a, c)]) acc := by
  induction l generalizing acc with
  | nil => exact ⟨hc, trivial⟩
  | cons hd tl ih =>
    obtain ⟨lap, cum⟩ := hd
    exact ⟨h.1, ih cum h.2 hc⟩

theorem lapsTelescope_get (l : List (Nat × Nat)) (acc : Nat)
    (h : lapsTelescope l acc) :
    ∀ i (hi : i < l.length),
      (l.get ⟨i, hi⟩).2 = acc + ((l.take (i + 1)).map Prod.fst).sum := by
  induction l generalizing acc with
  | nil => intro i hi; cases hi
  | cons hd tl ih =>
    obtain ⟨lap, cum⟩ := hd
    intro i hi
    cases i with
    | zero =>
      simpa [List.get] using h.1
    | succ j =>
      have hj : j < tl.length := by simpa using hi
      have := ih cum h.2 j hj
      simp only [List.take, List.map_cons, List.sum_cons, List.get]
      rw [this, h.1]
      omega

theorem lapsTelescope_last (l : List (Nat × Nat)) (acc : Nat)
    (h : lapsTelescope l acc) :
    ∀ p, l.getLast? = some p → p.2 = acc + (l.map Prod.fst).sum := by
  induction l generalizing acc with
  | nil => intro p hp; simp [List.getLast?] at hp
  | cons hd tl ih =>
    obtain ⟨lap, cum⟩ := hd
    intro p hp
    cases tl with
    | nil =>
      simp [List.getLast?] at hp
      subst hp
      simpa using h.1
    | cons hd2 tl2 =>
      rw [List.getLast?_cons_cons] at hp
      have h2 := ih cum h.2 p hp
      rw [h2, h.1]
      simp only [List.map_cons, List.sum_cons]
      omega

theorem add_lap_eq (s : App) (now : Nat) :
    s.add_lap now =
      { s with
        laps := s.laps ++ [(now - s.last_lap, now - s.start_time)]
        last_lap := now
        selected := some 0 } := by
  have hne : (s.laps ++ [(now - s.last_lap, now - s.start_time)]).isEmpty = false := by
    cases s.laps <;> rfl
  simp [App.add_lap, hne]

theorem toggle_pause_of_running (s : App) (now : Nat) (h : s.is_running = true) :
    s.toggle_pause now = { s with is_running := false } := by
  simp [App.toggle_pause, h]

theorem toggle_pause_of_paused (s : App) (now : Nat) (h : s.is_running = false) :
    s.toggle_pause now =
      { s with
        is_running := true
        start_time := s.start_time + (now - s.last_lap)
        last_lap := now } := by
  simp [App.toggle_pause, h]

theorem scroll_up_of_empty (s : App) (h : s.laps.isEmpty = true) :
    s.scroll_up = s := by
  simp [App.scroll_up, h]

theorem scroll_up_of_nonempty (s : App) (h : s.laps.isEmpty = false) :
    s.scroll_up =
      { s with
        selected := some (match s.selected with
          | some i => if i = 0 then s.laps.length - 1 else i - 1
          | none => 0) } := by
  simp [App.scroll_up, h]

theorem scroll_down_of_empty (s : App) (h : s.laps.isEmpty = true) :
    s.scroll_down = s := by
  simp [App.scroll_down, h]

theorem scroll_down_of_nonempty (s : App) (h : s.laps.isEmpty = false) :
    s.scroll_down =
      { s with
        selected := some (match s.selected with
          | some i => if s.laps.length - 1 ≤ i then 0 else i + 1
          | none => 0) } := by
  simp [App.scroll_down, h]

theorem length_pos_of_isEmpty_false (l : List (Nat × Nat))
    (h : l.isEmpty = false) : 0 < l.length := by
  cases l with
  | nil => exact absurd h (by decide)
  | cons a tl => simp

theorem inv_init (t0 : Nat) : AppInv (App.new t0) t0 := by
  refine ⟨Nat.le_refl _, Nat.le_refl _, trivial, ?_, ?_⟩
  · simp [App.new, lastCumAcc]
  · intro i hi
    simp [App.new] at hi

theorem inv_step (s : App) (t t' : Nat) (op : Op)
    (h : AppInv s t) (hle : t ≤ t') : AppInv (s.applyOp op t') t' := by
  obtain ⟨h1, h2, h3, h4, h5⟩ := h
  have h2' : s.last_lap ≤ t' := Nat.le_trans h2 hle
  cases op with
  | addLap =>
    show AppInv (s.add_lap t') t'
    rw [add_lap_eq]
    refine ⟨?_, ?_, ?_, ?_, ?_⟩
    · show s.start_time ≤ t'
      omega
    · show t' ≤ t'
      omega
    · show lapsTelescope (s.laps ++ [(t' - s.last_lap, t' - s.start_time)]) 0
      refine lapsTelescope_append_single _ _ _ _ h3 ?_
      rw [h4]
      omega
    · show lastCumAcc (s.laps ++ [(t' - s.last_lap, t' - s.start_time)]) 0
        = t' - s.start_time
      exact lastCumAcc_append_single _ _ _ _
    · intro i hi
      obtain rfl : (0 : Nat) = i := Option.some.inj hi
      show 0 < (s.laps ++ [(t' - s.last_lap, t' - s.start_time)]).length
      simp
  | togglePause =>
    show AppInv (s.toggle_pause t') t'
    cases hr : s.is_running with
    | true =>
      rw [toggle_pause_of_running s t' hr]
      exact ⟨h1, h2', h3, h4, h5⟩
    | false =>
      rw [toggle_pause_of_paused s t' hr]
      refine ⟨?_, ?_, h3, ?_, h5⟩
      · show s.start_time + (t' - s.last_lap) ≤ t'
        omega
      · show t' ≤ t'
        omega
      · show lastCumAcc s.laps 0 = t' - (s.start_time + (t' - s.last_lap))
        rw [h4]
        omega
  | reset =>
    show AppInv (s.reset t') t'
    refine ⟨Nat.le_refl _, Nat.le_refl _, trivial, ?_, ?_⟩
    · show lastCumAcc [] 0 = t' - t'
      simp [lastCumAcc]
    · intro i hi
      exact Option.noConfusion hi
  | scrollUp =>
    show AppInv s.scroll_up t'
    cases he : s.laps.isEmpty with
    | true =>
      rw [scroll_up_of_empty s he]
      exact ⟨h1, h2', h3, h4, h5⟩
    | false =>
      have hpos : 0 < s.laps.length := length_pos_of_isEmpty_false _ he
      rw [scroll_up_of_nonempty s he]
      refine ⟨h1, h2', h3, h4, ?_⟩
      intro i hi
      obtain rfl := Option.some.inj hi
      cases hs : s.selected with
      | none =>
        exact hpos
      | some j =>
        have hj : j < s.laps.length := h5 j hs
        show (if j = 0 then s.laps.length - 1 else j - 1) < s.laps.length
        split <;> omega
  | scrollDown =>
    show AppInv s.scroll_down t'
    cases he : s.laps.isEmpty with
    | true =>
      rw [scroll_down_of_empty s he]
      exact ⟨h1, h2', h3, h4, h5⟩
    | false =>
      have hpos : 0 < s.laps.length := length_pos_of_isEmpty_false _ he
      rw [scroll_down_of_nonempty s he]
      refine ⟨h1, h2', h3, h4, ?_⟩
      intro i hi
      obtain rfl := Option.some.inj hi
      cases hs : s.selected with
      | none =>
        exact hpos
      | some j =>
        have hj : j < s.laps.length := h5 j hs
        show (if s.laps.length - 1 ≤ j then 0 else j + 1) < s.laps.length
        split <;> omega

theorem reachable_inv (s : App) (t : Nat) (h : Reachable s t) : AppInv s t := by
  induction h with
  | init t0 => exact inv_init t0
  | step s t t' op hr hle ih => exact inv_step s t t' op ih hle

theorem isEmpty_false_of_ne_nil (l : List (Nat × Nat)) (h : l ≠ []) :
    l.isEmpty = false := by
  cases l with
  | nil => exact absurd rfl h
  | cons a tl => rfl

theorem demoApp_reachable : Reachable demoApp 20 := by
  have h0 : Reachable (App.new 0) 0 := Reachable.init 0
  have h1 : Reachable ((App.new 0).add_lap 5) 5 :=
    Reachable.step _ _ _ Op.addLap h0 (by omega)
  have h2 : Reachable (((App.new 0).add_lap 5).toggle_pause 8) 8 :=
    Reachable.step _ _ _ Op.togglePause h1 (by omega)
  have h3 : Reachable ((((App.new 0).add_lap 5).toggle_pause 8).toggle_pause 18) 18 :=
    Reachable.step _ _ _ Op.togglePause h2 (by omega)
  exact Reachable.step _ _ _ Op.addLap h3 (by omega)

/-!
Claim theorems.
-/

/-- C1: the spec requires `elapsed` immediately before a pause to equal
`elapsed` immediately after an instantaneous pause/resume round-trip.  The
code violates this: starting fresh at instant 0, at instant 5 `elapsed`
is 5, yet pausing and resuming both at instant 5 drops it to 0, because
the pause branch never re-stamps `last_lap`, so the resume branch treats
the whole span since the last event — here the running span 0..5 — as
paused time and shifts `start_time` past it. -/
theorem c1_pause_continuity_fails_on_code :
    Reachable (App.new 0) 0 ∧
    (App.new 0).elapsed 5 = 5 ∧
    (((App.new 0).toggle_pause 5).toggle_pause 5).elapsed 5 = 0 :=
  ⟨Reachable.init 0, by decide, by decide⟩

/-- C2: the spec requires `elapsed` to be frozen, while paused, at the
value it had at the instant the pause began.  The code freezes it at
`last_lap − start_time` instead: starting fresh at instant 0 and pausing
at instant 5, `elapsed` was 5 at the pause instant, but every later read
while paused returns 0 (the value as of the last event, instant 0). -/
theorem c2_frozen_value_wrong_on_code :
    Reachable (App.new 0) 0 ∧
    (App.new 0).elapsed 5 = 5 ∧
    ((App.new 0).toggle_pause 5).elapsed 5 = 0 ∧
    ((App.new 0).toggle_pause 5).elapsed 100 = 0 :=
  ⟨Reachable.init 0, by decide, by decide, by decide⟩

/-- C3: in every reachable state, the cumulative duration of the n-th lap
equals the sum of the lap durations of laps 1..n, and in particular the
sum of all lap durations equals the cumulative duration of the last lap. -/
theorem c3_lap_telescoping (s : App) (t : Nat) (h : Reachable s t) :
    (∀ i (hi : i < s.laps.length),
      (s.laps.get ⟨i, hi⟩).2 = ((s.laps.take (i + 1)).map Prod.fst).sum) ∧
    (∀ p, s.laps.getLast? = some p → (s.laps.map Prod.fst).sum = p.2) := by
  obtain ⟨-, -, h3, -, -⟩ := reachable_inv s t h
  constructor
  · intro i hi
    simpa using lapsTelescope_get s.laps 0 h3 i hi
  · intro p hp
    have := lapsTelescope_last s.laps 0 h3 p hp
    omega

/-- C3 witness: in the concrete reachable state `demoApp` the second lap's
cumulative duration equals the sum of the first two lap durations. -/
theorem c3_lap_telescoping_witness :
    (demoApp.laps.get ⟨1, by decide⟩).2 = ((demoApp.laps.take 2).map Prod.fst).sum :=
  (c3_lap_telescoping demoApp 20 demoApp_reachable).1 1 (by decide)

/-- C4 counterexample: a lap recorded while paused does NOT have zero
lap duration.  Pausing a fresh timer at instant 0 and recording a lap at
instant 10 (a pause 10 time units long) stores `(10, 10)`: the lap
duration is the whole span since the last event, pause included. -/
theorem c4_lap_while_paused_counterexample :
    Reachable ((App.new 0).toggle_pause 0) 0 ∧
    ((App.new 0).toggle_pause 0).is_running = false ∧
    (((App.new 0).toggle_pause 0).add_lap 10).laps = [(10, 10)] :=
  ⟨Reachable.step _ _ _ Op.togglePause (Reachable.init 0) (Nat.le_refl 0),
   by decide, by decide⟩

/-- C4 amended: recording a lap while paused appends a lap whose duration
is `now − last_lap` — the full span since the last lap/resume/start event
including the pause so far — and whose cumulative value is
`now − start_time`; the lap duration is zero exactly when no time has
passed since that last event, not independently of the pause length. -/
theorem c4_lap_while_paused_amended (s : App) (now : Nat)
    (_h : s.is_running = false) :
    (s.add_lap now).laps.getLast? = some (now - s.last_lap, now - s.start_time) ∧
    (now - s.last_lap = 0 ↔ now ≤ s.last_lap) := by
  constructor
  · rw [add_lap_eq]
    show (s.laps ++ [(now - s.last_lap, now - s.start_time)]).getLast? = _
    simp
  · omega

/-- C4 amended witness: instantiates the amended claim on the fresh timer
paused at instant 0 with a lap recorded at instant 10. -/
theorem c4_lap_while_paused_amended_witness :
    ((((App.new 0).toggle_pause 0).add_lap 10).laps.getLast?
      = some (10 - ((App.new 0).toggle_pause 0).last_lap,
              10 - ((App.new 0).toggle_pause 0).start_time)) ∧
    (10 - ((App.new 0).toggle_pause 0).last_lap = 0 ↔
      (10 : Nat) ≤ ((App.new 0).toggle_pause 0).last_lap) :=
  c4_lap_while_paused_amended ((App.new 0).toggle_pause 0) 10 (by decide)

/-- C5 counterexample: `format_duration` applied to 59.999 seconds DOES
produce `"60.00s"`, because the branch is chosen on the unrounded value
(59.999 < 60) and the seconds branch then rounds 59.999 up to 60.00. -/
theorem c5_sixty_boundary_counterexample :
    format_duration 59999000000 = "60.00s" := by decide

/-- C5 amended: format(59.999s) = "60.00s" — values that round to 60.0s
but lie below 60s stay in the seconds branch; values of 60s and above
(before rounding) go to the minutes branch, with no zero padding of the
whole-number fields: format(60s) = "1m 0.00s" and
format(3600s) = "1h 0m 0.0s". -/
theorem c5_sixty_boundary_amended :
    format_duration 59999000000 = "60.00s" ∧
    format_duration 60000000000 = "1m 0.00s" ∧
    format_duration 3600000000000 = "1h 0m 0.0s" :=
  ⟨by decide, by decide, by decide⟩

/-- C6: lap-list navigation wraps around: with laps recorded, `scroll_up`
from index 0 wraps to `len − 1` and otherwise decrements, `scroll_down`
from index `len − 1` wraps to 0 and otherwise increments, and either
operation selects index 0 when nothing is selected; with no laps both
operations are no-ops. -/
theorem c6_navigation_wraparound (s : App) :
    (s.laps = [] → s.scroll_up = s ∧ s.scroll_down = s) ∧
    (s.laps ≠ [] → s.selected = none →
      s.scroll_up.selected = some 0 ∧ s.scroll_down.selected = some 0) ∧
    (∀ i, s.laps ≠ [] → s.selected = some i →
      s.scroll_up.selected = some (if i = 0 then s.laps.length - 1 else i - 1) ∧
      s.scroll_down.selected
        = some (if s.laps.length - 1 ≤ i then 0 else i + 1)) := by
  refine ⟨?_, ?_, ?_⟩
  · intro h
    have he : s.laps.isEmpty = true := by rw [h]; rfl
    exact ⟨scroll_up_of_empty s he, scroll_down_of_empty s he⟩
  · intro h hn
    have he := isEmpty_false_of_ne_nil s.laps h
    rw [scroll_up_of_nonempty s he, scroll_down_of_nonempty s he]
    constructor
    · simp [hn]
    · simp [hn]
  · intro i h hs
    have he := isEmpty_false_of_ne_nil s.laps h
    rw [scroll_up_of_nonempty s he, scroll_down_of_nonempty s he]
    constructor
    · simp [hs]
    · simp [hs]

/-- C6 witness: in `demoApp` (two laps, index 0 selected), `scroll_up`
wraps the selection to index 1 and `scroll_down` moves it to index 1. -/
theorem c6_navigation_wraparound_witness :
    demoApp.scroll_up.selected
      = some (if 0 = 0 then demoApp.laps.length - 1 else 0 - 1) ∧
    demoApp.scroll_down.selected
      = some (if demoApp.laps.length - 1 ≤ 0 then 0 else 0 + 1) :=
  (c6_navigation_wraparound demoApp).2.2 0 (by decide) (by decide)

/-- C7 counterexample: the code does not zero-pad the whole-second field of
the minutes branch: 187.5 seconds renders as `"3m 7.50s"`, not the
claimed `"3m 07.50s"` shape (`format_duration_spec_padded` renders the
claim's shape). -/
theorem c7_format_shape_counterexample :
    format_duration 187500000000 = "3m 7.50s" ∧
    format_duration_spec_padded 187500000000 = "3m 07.50s" ∧
    format_duration 187500000000 ≠ format_duration_spec_padded 187500000000 :=
  ⟨by decide, by decide, by decide⟩

/-- C7 amended: the three thresholds hold, but no whole-number field is
zero-padded — below 60s the output is `⟨seconds⟩.⟨2 digits⟩s`; from 60s to
3600s it is `⟨minutes⟩m ⟨seconds⟩.⟨2 digits⟩s`; at and above 3600s it is
`⟨hours⟩h ⟨minutes⟩m ⟨seconds⟩.⟨1 digit⟩s`, each whole field printed with
plain unpadded `toString` and only the fractional digits padded. -/
theorem c7_format_shape_amended (ns : Nat) :
    (ns < 60 * 10 ^ 9 →
      format_duration ns =
        toString (roundHalfEven ns (10 ^ 7) / 100) ++ "."
          ++ pad2 (roundHalfEven ns (10 ^ 7) % 100) ++ "s") ∧
    (60 * 10 ^ 9 ≤ ns → ns < 3600 * 10 ^ 9 →
      format_duration ns =
        toString (ns / (60 * 10 ^ 9)) ++ "m "
          ++ (toString (roundHalfEven (ns % (60 * 10 ^ 9)) (10 ^ 7) / 100) ++ "."
            ++ pad2 (roundHalfEven (ns % (60 * 10 ^ 9)) (10 ^ 7) % 100)) ++ "s") ∧
    (3600 * 10 ^ 9 ≤ ns →
      format_duration ns =
        toString (ns / (3600 * 10 ^ 9)) ++ "h "
          ++ toString (ns % (3600 * 10 ^ 9) / (60 * 10 ^ 9)) ++ "m "
          ++ (toString (roundHalfEven (ns % (3600 * 10 ^ 9) % (60 * 10 ^ 9)) (10 ^ 8) / 10)
            ++ "."
            ++ toString (roundHalfEven (ns % (3600 * 10 ^ 9) % (60 * 10 ^ 9)) (10 ^ 8) % 10))
          ++ "s") := by
  refine ⟨fun h => ?_, fun h1 h2 => ?_, fun h => ?_⟩
  · unfold format_duration
    rw [if_pos h]
    rfl
  · unfold format_duration
    rw [if_neg (by omega), if_pos h2]
    rfl
  · unfold format_duration
    rw [if_neg (by omega), if_neg (by omega)]
    rfl

/-- C7 amended witness: instantiates the amended shape statement in all
three branches, at 5 s, 187.5 s and 3723.45 s. -/
theorem c7_format_shape_amended_witness :
    format_duration 5000000000 =
      toString (roundHalfEven 5000000000 (10 ^ 7) / 100) ++ "."
        ++ pad2 (roundHalfEven 5000000000 (10 ^ 7) % 100) ++ "s" ∧
    format_duration 187500000000 =
      toString (187500000000 / (60 * 10 ^ 9)) ++ "m "
        ++ (toString (roundHalfEven (187500000000 % (60 * 10 ^ 9)) (10 ^ 7) / 100) ++ "."
          ++ pad2 (roundHalfEven (187500000000 % (60 * 10 ^ 9)) (10 ^ 7) % 100)) ++ "s" ∧
    format_duration 3723450000000 =
      toString (3723450000000 / (3600 * 10 ^ 9)) ++ "h "
        ++ toString (3723450000000 % (3600 * 10 ^ 9) / (60 * 10 ^ 9)) ++ "m "
        ++ (toString (roundHalfEven (3723450000000 % (3600 * 10 ^ 9) % (60 * 10 ^ 9)) (10 ^ 8) / 10)
          ++ "."
          ++ toString (roundHalfEven (3723450000000 % (3600 * 10 ^ 9) % (60 * 10 ^ 9)) (10 ^ 8) % 10))
        ++ "s" :=
  ⟨(c7_format_shape_amended 5000000000).1 (by decide),
   (c7_format_shape_amended 187500000000).2.1 (by decide) (by decide),
   (c7_format_shape_amended 3723450000000).2.2 (by decide)⟩

/-- C8: `reset` at instant `now` yields exactly the creation state
`App.new now` for any starting state, is therefore idempotent when
repeated at the same instant, and the elapsed time immediately after is
zero. -/
theorem c8_reset_idempotent (s : App) (now : Nat) :
    s.reset now = App.new now ∧
    (s.reset now).reset now = s.reset now ∧
    (s.reset now).elapsed now = 0 := by
  refine ⟨rfl, rfl, ?_⟩
  show now - now = 0
  exact Nat.sub_self now

/-- C9: in every reachable state the anchor `start_time` is at most
`last_lap`, and at most any present-or-future clock reading; consequently
the `Int`-valued elapsed time is non-negative and the saturating
subtraction in `elapsed` never actually truncates. -/
theorem c9_elapsed_nonneg (s : App) (t now : Nat) (h : Reachable s t)
    (hn : t ≤ now) :
    s.start_time ≤ s.last_lap ∧ s.start_time ≤ now ∧
    s.elapsedExact now = (s.elapsed now : Int) ∧ 0 ≤ s.elapsedExact now := by
  obtain ⟨h1, h2, -, -, -⟩ := reachable_inv s t h
  refine ⟨h1, by omega, ?_, ?_⟩
  · cases hr : s.is_running <;> simp [App.elapsedExact, App.elapsed, hr] <;> omega
  · cases hr : s.is_running <;> simp [App.elapsedExact, hr] <;> omega

/-- C9 witness: instantiates the invariant on the concrete reachable state
`demoApp` read at instant 25. -/
theorem c9_elapsed_nonneg_witness :
    demoApp.start_time ≤ demoApp.last_lap ∧ demoApp.start_time ≤ 25 ∧
    demoApp.elapsedExact 25 = (demoApp.elapsed 25 : Int) ∧
    0 ≤ demoApp.elapsedExact 25 :=
  c9_elapsed_nonneg demoApp 20 25 demoApp_reachable (by decide)

/-- C10: in every reachable state the selection is either `none` or a
valid index into the lap list. -/
theorem c10_selection_in_bounds (s : App) (t : Nat) (h : Reachable s t) :
    ∀ i, s.selected = some i → i < s.laps.length :=
  (reachable_inv s t h).2.2.2.2

/-- C10 witness: in the concrete reachable state `demoApp` the selected
index 0 is within the two recorded laps. -/
theorem c10_selection_in_bounds_witness : (0 : Nat) < demoApp.laps.length :=
  c10_selection_in_bounds demoApp 20 demoApp_reachable 0 (by decide)
